import Mathlib

/-!
Verification of the source-initialization subsystem of scarlet
(`src/scarlet/source.py`, `src/scarlet/parameter.py`).

Images are embedded as rational-valued pixel grids (`QImage`): a pair of
dimensions together with a total valuation function on integer pixel
coordinates; only the pixels `0 ≤ y < ny`, `0 ≤ x < nx` belong to the
array, and operations that scan the array iterate over exactly that range.
Floating-point arithmetic is embedded as exact rational arithmetic (the
claims under study are about algebraic identities and sign conditions, not
rounding).  Code of the repository that is not part of the two provided
files (the `Box` class of `bbox.py`, the projection operators of
`operator.py`, the `Observation`/`Frame` collaborators, and the constraint
classes of `constraint.py`) is modelled from the specification; every such
definition carries a doc comment starting with `Modelled from the spec:`.
-/

/-- A rational-valued image: `ny × nx` pixels, with a total valuation on
integer coordinates.  The array proper is the restriction of `val` to
`0 ≤ y < ny`, `0 ≤ x < nx`; scanning operations only read that range. -/
structure QImage where
  ny : ℕ
  nx : ℕ
  val : ℤ → ℤ → ℚ

/-- Modelled from the spec: a 2D axis-aligned integer bounding box with
`start` (inclusive) and `stop` (exclusive) corners, in `(y, x)` order
(`bbox.py` is not among the provided sources). -/
structure Box2 where
  start : ℤ × ℤ
  stop : ℤ × ℤ

/-- Modelled from the spec: membership of a pixel in a box — each
coordinate lies in the half-open interval from `start` to `stop`. -/
def Box2.containsB (b : Box2) (p : ℤ × ℤ) : Bool :=
  decide (b.start.1 ≤ p.1) && decide (p.1 < b.stop.1) &&
  decide (b.start.2 ≤ p.2) && decide (p.2 < b.stop.2)

/-- A 3D (channel × y × x) bounding box, as produced by
`Box.from_bounds((0, C), (bottom, top), (left, right))`. -/
structure Box3 where
  cstart : ℤ
  cstop : ℤ
  ystart : ℤ
  ystop : ℤ
  xstart : ℤ
  xstop : ℤ

/-- Row indices of the image holding at least one strictly positive pixel. -/
def posYs (m : QImage) : List ℕ :=
  (List.range m.ny).filter fun y =>
    (List.range m.nx).any fun x => decide (0 < m.val (y : ℤ) (x : ℤ))

/-- Column indices of the image holding at least one strictly positive pixel. -/
def posXs (m : QImage) : List ℕ :=
  (List.range m.nx).filter fun x =>
    (List.range m.ny).any fun y => decide (0 < m.val (y : ℤ) (x : ℤ))

/-- Minimum of a list of naturals (0 for the empty list). -/
def listMinN (l : List ℕ) : ℕ := l.foldr min (l.headD 0)

/-- Maximum of a list of naturals (0 for the empty list). -/
def listMaxN (l : List ℕ) : ℕ := l.foldr max (l.headD 0)

/-- Modelled from the spec: `Box.from_data(X, min_value=0)` — the tight
bounding box of the pixels strictly above 0 (`bbox.py` is not among the
provided sources).  When no pixel qualifies the box is empty. -/
def boxFromData (m : QImage) : Box2 :=
  match posYs m, posXs m with
  | [], _ => ⟨(0, 0), (0, 0)⟩
  | _, [] => ⟨(0, 0), (0, 0)⟩
  | ys, xs =>
      ⟨((listMinN ys : ℤ), (listMinN xs : ℤ)),
       ((listMaxN ys + 1 : ℤ), (listMaxN xs + 1 : ℤ))⟩

/-- Modelled from the spec: `bbox.extract_from(image)` — re-extract the
image over the box, padding with zeros where the box extends beyond the
source array (`bbox.py` is not among the provided sources). -/
def Box2.extract_from (b : Box2) (m : QImage) : QImage :=
  ⟨(b.stop.1 - b.start.1).toNat, (b.stop.2 - b.start.2).toNat,
   fun y x =>
     if 0 ≤ y ∧ y < b.stop.1 - b.start.1 ∧ 0 ≤ x ∧ x < b.stop.2 - b.start.2
        ∧ 0 ≤ b.start.1 + y ∧ b.start.1 + y < (m.ny : ℤ)
        ∧ 0 ≤ b.start.2 + x ∧ b.start.2 + x < (m.nx : ℤ)
     then m.val (b.start.1 + y) (b.start.2 + x) else 0⟩

/-- The `while boxsize < size: boxsize *= 2` loop of `trim_morphology`
(source lines 168-169), written with explicit fuel; the callers supply
fuel `size.toNat`, which is enough for the loop to run to completion from
the base size 16 (see `growLoop_exits`). -/
def growLoop (fuel : ℕ) (size : ℤ) (boxsize : ℕ) : ℕ :=
  match fuel with
  | 0 => boxsize
  | fuel + 1 => if (boxsize : ℤ) < size then growLoop fuel size (2 * boxsize) else boxsize

/-- The mask-nonemptiness test `mask.sum() > 0` of `trim_morphology`
(line 150), with `mask = morph > bg_cutoff * thresh`; `t` denotes
`bg_cutoff * thresh`. -/
def trimMask (m : QImage) (t : ℚ) : Bool :=
  (List.range m.ny).any fun y =>
    (List.range m.nx).any fun x => decide (t < m.val (y : ℤ) (x : ℤ))

/-- `morph[~mask] = 0` of `trim_morphology` (line 151): pixels at or below
the threshold are zeroed. -/
def trimThresholded (m : QImage) (t : ℚ) : QImage :=
  ⟨m.ny, m.nx, fun y x => if t < m.val y x then m.val y x else 0⟩

/-- Lines 153-155 of `trim_morphology`: normalize the thresholded
morphology to unity at the center pixel (`morph /= center_morph`). -/
def trimNormalized (pc : ℤ × ℤ) (m : QImage) (t : ℚ) : QImage :=
  ⟨m.ny, m.nx, fun y x =>
    (trimThresholded m t).val y x / (trimThresholded m t).val pc.1 pc.2⟩

/-- The morphology that `trim_morphology` extracts from: the thresholded,
center-normalized image when the mask is nonempty (lines 150-155), the
unmodified input otherwise (warning branch, lines 170-172). -/
def trimMorphF (pc : ℤ × ℤ) (m : QImage) (t : ℚ) : QImage :=
  if trimMask m t then trimNormalized pc m t else m

/-- The box size chosen by `trim_morphology` (lines 148-169): base 16,
doubled until it covers twice the largest center-to-tight-box distance,
and left at 16 when the mask is empty or the tight box misses the center. -/
def trimBoxsize (pc : ℤ × ℤ) (m : QImage) (t : ℚ) : ℕ :=
  if trimMask m t then
    let bbox := boxFromData (trimNormalized pc m t)
    if bbox.containsB pc then
      let size := 2 * max (max (pc.1 - bbox.start.1) (bbox.stop.1 - pc.1))
                          (max (pc.2 - bbox.start.2) (bbox.stop.2 - pc.2))
      growLoop size.toNat size 16
    else 16
  else 16

/-- Embedding of `trim_morphology` (source lines 145-182).  `pc` is
`frame.get_pixel(sky_coord)` and `C` is `frame.C`; the returned pair is
the extracted morphology and the 3D bounding box. -/
def trim_morphology (pc : ℤ × ℤ) (C : ℕ) (morph : QImage) (bg_cutoff thresh : ℚ) :
    QImage × Box3 :=
  let t := bg_cutoff * thresh
  let boxsize := trimBoxsize pc morph t
  let bottom := pc.1 - (boxsize / 2 : ℕ)
  let top := pc.1 + (boxsize / 2 : ℕ)
  let left := pc.2 - (boxsize / 2 : ℕ)
  let right := pc.2 + (boxsize / 2 : ℕ)
  (Box2.extract_from ⟨(bottom, left), (top, right)⟩ (trimMorphF pc morph t),
   ⟨0, C, bottom, top, left, right⟩)

/-- The morphology part of `init_extended_source` (source lines 231-247):
optionally apply the symmetry projection, optionally the monotonicity
projection, then trim.  `symOp` and `monoOp` stand for the external
`operator.prox_uncentered_symmetry` and `operator.prox_weighted_monotonic`
(`operator.py` is not among the provided sources; spec 4.3 steps 3-4); sed
estimation and coadd construction are embedded separately. -/
def init_extended_source_morph (symOp monoOp : QImage → QImage)
    (symmetric monotonic : Bool) (pc : ℤ × ℤ) (C : ℕ) (coadd : QImage)
    (bg_cutoff thresh : ℚ) : QImage × Box3 :=
  let morph1 := if symmetric then symOp coadd else coadd
  let morph2 := if monotonic then monoOp morph1 else morph1
  trim_morphology pc C morph2 bg_cutoff thresh

/-- Row-major list of the pixel values of the array (the flattened array). -/
def pixList (m : QImage) : List ℚ :=
  (List.range m.ny).flatMap fun y =>
    (List.range m.nx).map fun x => m.val (y : ℤ) (x : ℤ)

/-- `array.max()` over the whole pixel grid (numpy raises on an empty
array; here the empty case returns 0). -/
def qImageMax (m : QImage) : ℚ :=
  (pixList m).foldr max ((pixList m).headD 0)

/-- The layer-peeling loop of `init_multicomponent_source` (source lines
299-306), written as explicit state passing: iteration `k` of the Python
loop overwrites layer `k-1` on the mask `morph > flux_thresh` with
`flux_thresh - last_thresh` and initializes layer `k` there with
`morph - flux_thresh`; the recursion emits layer `k-1` at the step that
consumes threshold `t_k`, carrying the still-growing layer `c`. -/
def peelLayers (morphv : ℤ → ℤ → ℚ) (last_thresh : ℚ) :
    List ℚ → (ℤ → ℤ → ℚ) → List (ℤ → ℤ → ℚ)
  | [], c => [c]
  | t :: ts, c =>
      (fun y x => if t < morphv y x then t - last_thresh else c y x)
        :: peelLayers morphv t ts fun y x =>
             if t < morphv y x then morphv y x - t else 0

/-- The sorted flux thresholds of `init_multicomponent_source` (lines
297-302): `np.sort` of the percentiles, each mapped to
`perc * max_flux / 100`. -/
def fluxThresholds (morph : QImage) (flux_percentiles : List ℚ) : List ℚ :=
  (List.insertionSort (· ≤ ·) flux_percentiles).map fun p =>
    p * qImageMax morph / 100

/-- The `K = len(flux_percentiles) + 1` morphology layers built by
`init_multicomponent_source` before the per-layer renormalization
(source lines 292-306): `morphs[0]` starts as the input morphology and
the loop peels one layer per threshold. -/
def init_multicomponent_morphs_raw (morph : QImage) (flux_percentiles : List ℚ) :
    List (ℤ → ℤ → ℚ) :=
  peelLayers morph.val 0 (fluxThresholds morph flux_percentiles) morph.val

/-- The morphology layers returned by `init_multicomponent_source`: the
raw layers, each renormalized to unit peak (`morphs[k] /= morphs[k].max()`,
source lines 309-313). -/
def init_multicomponent_morphs (morph : QImage) (flux_percentiles : List ℚ) :
    List QImage :=
  (init_multicomponent_morphs_raw morph flux_percentiles).map fun f =>
    ⟨morph.ny, morph.nx, fun y x => f y x / qImageMax ⟨morph.ny, morph.nx, f⟩⟩

/-- The morphology part of `init_multicomponent_source` (source lines
279-313): the extended-source morphology, split into layers; the SED
refit (lines 315-317) uses the external observation images and is not
needed by the claims under study. -/
def init_multicomponent_source_model (symOp monoOp : QImage → QImage)
    (symmetric monotonic : Bool) (pc : ℤ × ℤ) (C : ℕ) (coadd : QImage)
    (bg_cutoff thresh : ℚ) (flux_percentiles : List ℚ) : List QImage × Box3 :=
  let r := init_extended_source_morph symOp monoOp symmetric monotonic pc C coadd
    bg_cutoff thresh
  (init_multicomponent_morphs r.1 flux_percentiles, r.2)

/-- Modelled from the spec: a PSF model exposing its image stack
(channel × y × x), per spec section 6 (`psf.image`). -/
structure PSFModel where
  image : List (List (List ℚ))

/-- Modelled from the spec: the `Frame` collaborator — an optional PSF
model and the `get_pixel` sky-to-pixel map (spec section 6). -/
structure SFrame where
  psf : Option PSFModel
  getPixel : ℚ × ℚ → ℤ × ℤ

/-- Modelled from the spec: the `Observation` collaborator — its frame,
per-channel images, and whether the object is of the reference type
`Observation` (spec section 6; `type(obs) is Observation` in the source). -/
structure SObservation where
  frame : SFrame
  images : List (ℤ → ℤ → ℚ)
  isObs : Bool

/-- Maximum entry of a 2D list-of-lists image (numpy `a.max()`; 0 for an
empty image). -/
def amax2 (img : List (List ℚ)) : ℚ :=
  img.flatten.foldr max (img.flatten.headD 0)

/-- `psf.image.max(axis=(1, 2))`: the per-channel peak values of a PSF. -/
def psfChannelPeaks (p : PSFModel) : List ℚ := p.image.map amax2

/-- `psf.image[0].max()`: the channel-0 peak value of a PSF. -/
def psfPeak0 (p : PSFModel) : ℚ := amax2 (p.image.headD [])

/-- Embedding of `get_pixel_sed` (source lines 21-38): the per-channel
pixel values at the observation-frame pixel of the sky position. -/
def get_pixel_sed (sky_coord : ℚ × ℚ) (observation : SObservation) : List ℚ :=
  let pixel := observation.frame.getPixel sky_coord
  observation.images.map fun img => img pixel.1 pixel.2

/-- Embedding of `get_psf_sed` (source lines 41-71): the pixel SED,
divided elementwise by the observation PSF's per-channel peaks when the
observation frame has a PSF, then scaled by the model frame PSF's
channel-0 peak when the model frame has a PSF. -/
def get_psf_sed (sky_coord : ℚ × ℚ) (observation : SObservation) (frame : SFrame) :
    List ℚ :=
  let sed := get_pixel_sed sky_coord observation
  let sed1 :=
    match observation.frame.psf with
    | none => sed
    | some p => sed.zipWith (· / ·) (psfChannelPeaks p)
  match frame.psf with
  | none => sed1
  | some p => sed1.map (· * psfPeak0 p)

/-- The claim's description of `get_psf_sed`, written channelwise: each
pixel-SED entry divided by the observation PSF peak of its channel (when
the observation has a PSF) and multiplied by the target frame's channel-0
peak (when the target frame has a PSF). -/
def psf_sed_formula (sky_coord : ℚ × ℚ) (observation : SObservation)
    (frame : SFrame) : List ℚ :=
  let sed := get_pixel_sed sky_coord observation
  (List.range sed.length).map fun c =>
    sed.getD c 0
      / (match observation.frame.psf with
         | none => 1
         | some p => (psfChannelPeaks p).getD c 1)
      * (match frame.psf with
         | none => 1
         | some p => psfPeak0 p)

/-- Python exception kinds raised by the embedded code paths. -/
inductive PyError where
  | valueError
  | indexError
  | attributeError
deriving DecidableEq

/-- `positive = [c for c in range(C) if sed[c] > 0]` (source line 105). -/
def positiveChannels (sed : List ℚ) : List ℕ :=
  (List.range sed.length).filter fun c => decide (0 < sed.getD c 0)

/-- The per-observation loop of `build_sed_coadd` (source lines 98-112)
reduced to its exception behavior, in statement order: reading `seds[i]`
and `bg_rmses[i]` raises IndexError past the end of either list (lines
99-101); a background RMS entry that is zero or negative raises
ValueError (lines 102-103); then the comprehensions over the positive-SED
channels read `obs.images[c]` (lines 106-109; for a non-reference
observation the interpolated image, which per spec section 6 carries the
observation's channel count) and `bg_rms[c]` (lines 110-112), raising
IndexError when a channel index reaches past either length. -/
def coaddLoopCheck : List SObservation → List (List ℚ) → List (List ℚ) →
    Except PyError Unit
  | [], _, _ => Except.ok ()
  | obs :: obss, seds, rmses =>
    match seds with
    | [] => Except.error PyError.indexError
    | sed :: seds' =>
      match rmses with
      | [] => Except.error PyError.indexError
      | rms :: rmses' =>
        if rms.any fun r => decide (r ≤ 0) then Except.error PyError.valueError
        else if (positiveChannels sed).any fun c => decide (obs.images.length ≤ c)
          then Except.error PyError.indexError
        else if (positiveChannels sed).any fun c => decide (rms.length ≤ c)
          then Except.error PyError.indexError
        else coaddLoopCheck obss seds' rmses'

/-- The exception behavior of `build_sed_coadd` (source lines 90-118):
`observations[loc[0][0]]` raises IndexError when no element of
`observations` is of type `Observation` (lines 91-93), and otherwise the
loop validates and reads each observation in order.  The values computed
on the success path are embedded by `coaddNorm`, `coaddRadicand` and
`bg_cutoff`. -/
def build_sed_coadd_exc (observations : List SObservation)
    (seds bg_rmses : List (List ℚ)) : Except PyError Unit :=
  if observations.any fun o => o.isObs then coaddLoopCheck observations seds bg_rmses
  else Except.error PyError.indexError

/-- The `(sed[c], bg_rms[c])` pairs accumulated over all observations and
their positive-SED channels, in loop order (source lines 105-112). -/
def coaddPairs (seds bg_rmses : List (List ℚ)) : List (ℚ × ℚ) :=
  (seds.zip bg_rmses).flatMap fun sr =>
    (positiveChannels sr.1).map fun c => (sr.1.getD c 0, sr.2.getD c 0)

/-- One entry of the `weights` list: `sed[c] / bg_rms[c] ** 2`
(source line 111). -/
def coaddWeight (p : ℚ × ℚ) : ℚ := p.1 / p.2 ^ 2

/-- One entry of the `jacobian_args` list: `sed[c] ** 2 / bg_rms[c] ** 2`
(source line 112). -/
def coaddJac (p : ℚ × ℚ) : ℚ := p.1 ^ 2 / p.2 ^ 2

/-- `np.sum(jacobian_args)` (source lines 114, 117). -/
def coaddNorm (seds bg_rmses : List (List ℚ)) : ℚ :=
  ((coaddPairs seds bg_rmses).map coaddJac).sum

/-- `(np.array(weights) ** 2 * np.array(positive_bgrms) ** 2).sum()`, the
radicand of the background cutoff (source line 117). -/
def coaddRadicand (seds bg_rmses : List (List ℚ)) : ℚ :=
  ((coaddPairs seds bg_rmses).map fun p => coaddWeight p ^ 2 * p.2 ^ 2).sum

/-- The `bg_cutoff` returned by `build_sed_coadd` (source line 117):
`np.sqrt(radicand) / normalization`, over the reals. -/
noncomputable def bg_cutoff (seds bg_rmses : List (List ℚ)) : ℝ :=
  Real.sqrt ((coaddRadicand seds bg_rmses : ℚ) : ℝ) /
    ((coaddNorm seds bg_rmses : ℚ) : ℝ)

/-- All `(sed[c], bg_rms[c])` pairs over every channel of every
observation — the claim's formula ranges over all channels, with
`weight = sed / rms²`. -/
def coaddPairsAll (seds bg_rmses : List (List ℚ)) : List (ℚ × ℚ) :=
  (seds.zip bg_rmses).flatMap fun sr => sr.1.zip sr.2

/-- The claim's formula for the background cutoff:
`sqrt(Σ (weight·rms)²) / Σ sed²/rms²` with `weight = sed/rms²`, summing
over every channel. -/
noncomputable def bg_cutoff_spec (seds bg_rmses : List (List ℚ)) : ℝ :=
  Real.sqrt ((((coaddPairsAll seds bg_rmses).map fun p =>
      (p.1 / p.2 ^ 2 * p.2) ^ 2).sum : ℚ) : ℝ) /
    ((((coaddPairsAll seds bg_rmses).map fun p => p.1 ^ 2 / p.2 ^ 2).sum : ℚ) : ℝ)

/-- The broadcast threshold stack of `StarletSource.__init__` before the
last-scale exemption (source lines 546-547): every coefficient of wavelet
scale `s` gets `thresh * starlet_norm[s]`.  The scalar `thresh` is
`starlet_thresh * sqrt(Σ (sed·noise)²)` computed upstream (line 537) and
is taken here as a parameter; `starlet_norm` is the per-scale norm of the
external wavelet transform. -/
def starletBaseThresh (thresh : ℚ) (starlet_norm : List ℚ) : ℕ → ℕ → ℕ → ℚ :=
  fun s _y _x => thresh * starlet_norm.getD s 0

/-- `thresh_array[:, -1, :, :] = 0` (source line 549): numpy index `-1` on
the scale axis of length `lvl` is scale `lvl - 1`. -/
def setLastScaleZero (lvl : ℕ) (a : ℕ → ℕ → ℕ → ℚ) : ℕ → ℕ → ℕ → ℚ :=
  fun s y x => if s = lvl - 1 then 0 else a s y x

/-- The per-coefficient sparsity threshold array of
`StarletSource.__init__` (source lines 546-549), indexed by
(scale, y, x); `lvl` is the number of wavelet scales
(`morph.shape[1]`). -/
def starletThreshArray (thresh : ℚ) (starlet_norm : List ℚ) (lvl : ℕ) :
    ℕ → ℕ → ℕ → ℚ :=
  setLastScaleZero lvl (starletBaseThresh thresh starlet_norm)

/-- The Python value passed as the `monotonic` keyword: the booleans, and
the string variants, of the backwards-compatibility shim
(source lines 676-680). -/
inductive PyMono where
  | pyTrue
  | pyFalse
  | pyNone
  | pyStr (s : String)
deriving DecidableEq

/-- Modelled from the spec: the constraint constructors of
`constraint.py` (not among the provided sources), identified by their
construction arguments. -/
inductive ConstraintSpec where
  | monotonicity (neighbor_weight : String) (min_gradient : ℚ)
  | symmetry
  | positivity
  | centerOn
  | normalization (kind : String)
deriving DecidableEq

/-- Whether a constraint is a monotonicity constraint. -/
def ConstraintSpec.isMono : ConstraintSpec → Bool
  | ConstraintSpec.monotonicity _ _ => true
  | _ => false

/-- The backwards-compatibility shim of `ExtendedSource.__init__`
(source lines 676-680): `True` becomes `"angle"`, `False` becomes `None`,
anything else is used unchanged. -/
def monotonicShim (monotonic : PyMono) : Option String :=
  match monotonic with
  | PyMono.pyTrue => some ("angle")
  | PyMono.pyFalse => none
  | PyMono.pyNone => none
  | PyMono.pyStr s => some s

/-- The morphology constraint chain assembled by `ExtendedSource.__init__`
(source lines 674-698): optional monotonicity (via the shim), optional
symmetry, then positivity and max-normalization. -/
def extendedSourceConstraints (monotonic : PyMono) (symmetric : Bool)
    (min_grad : ℚ) : List ConstraintSpec :=
  (match monotonicShim monotonic with
   | some s => [ConstraintSpec.monotonicity s min_grad]
   | none => []) ++
  (if symmetric then [ConstraintSpec.symmetry] else []) ++
  [ConstraintSpec.positivity, ConstraintSpec.normalization ("max")]

/-- The morphology constraint chain assembled by
`MultiComponentSource.__init__` (source lines 823-846): as for
`ExtendedSource`, with an additional center-on constraint. -/
def multiComponentConstraints (monotonic : PyMono) (symmetric : Bool)
    (min_grad : ℚ) : List ConstraintSpec :=
  (match monotonicShim monotonic with
   | some s => [ConstraintSpec.monotonicity s min_grad]
   | none => []) ++
  (if symmetric then [ConstraintSpec.symmetry] else []) ++
  [ConstraintSpec.positivity, ConstraintSpec.centerOn,
   ConstraintSpec.normalization ("max")]

/-- What `ExtendedSource.__init__` computes from its constructor
arguments: the initializer result and the constraint chain. -/
structure ExtSetup where
  initResult : QImage × Box3
  constraints : List ConstraintSpec

/-- Embedding of `ExtendedSource.__init__` (source lines 608-702): the
initializer is invoked with `symmetric=True, monotonic=True` (lines
662-663) regardless of the constructor's `monotonic` and `symmetric`
arguments, which only shape the constraint chain. -/
def extendedSourceSetup (symOp monoOp : QImage → QImage) (pc : ℤ × ℤ) (C : ℕ)
    (coadd : QImage) (bg_cutoff thresh : ℚ) (monotonic : PyMono)
    (symmetric : Bool) (min_grad : ℚ) : ExtSetup :=
  { initResult := init_extended_source_morph symOp monoOp true true pc C coadd
      bg_cutoff thresh
    constraints := extendedSourceConstraints monotonic symmetric min_grad }

/-- What `MultiComponentSource.__init__` computes from its constructor
arguments: the layered morphologies, the box, and the constraint chain. -/
structure MultiSetup where
  morphs : List QImage
  bbox : Box3
  constraints : List ConstraintSpec

/-- Embedding of `MultiComponentSource.__init__` (source lines 744-863):
`init_multicomponent_source` is invoked with `symmetric=True,
monotonic=True` (lines 818-819) regardless of the constructor's arguments,
which only shape the constraint chain. -/
def multiComponentSetup (symOp monoOp : QImage → QImage) (pc : ℤ × ℤ) (C : ℕ)
    (coadd : QImage) (bg_cutoff thresh : ℚ) (flux_percentiles : List ℚ)
    (monotonic : PyMono) (symmetric : Bool) (min_grad : ℚ) : MultiSetup :=
  let r := init_multicomponent_source_model symOp monoOp true true pc C coadd
    bg_cutoff thresh flux_percentiles
  { morphs := r.1
    bbox := r.2
    constraints := multiComponentConstraints monotonic symmetric min_grad }

/-- The coadd/cutoff selection of `init_extended_source` (source lines
216-229): with `coadd=None` the detection coadd and cutoff are rebuilt
from the observations (the `built` argument stands for the
`build_sed_coadd` result computed from the observations' weights, lines
218-224); with a supplied coadd, a missing `bg_cutoff` raises
AttributeError (lines 226-229), otherwise the supplied pair is used. -/
def init_extended_coadd (built : QImage × ℚ) (coadd : Option QImage)
    (bg_cutoff : Option ℚ) : Except PyError (QImage × ℚ) :=
  match coadd with
  | none => Except.ok built
  | some c =>
    match bg_cutoff with
    | none => Except.error PyError.attributeError
    | some b => Except.ok (c, b)

/-- The coadd plumbing of `MultiComponentSource.__init__` (source lines
809-815): `init_multicomponent_source` is called with `coadd=None` while
the caller's `bg_cutoff` is forwarded, so `init_extended_source` takes its
rebuild branch. -/
def multicomponent_source_coadd (built : QImage × ℚ) (_coadd : Option QImage)
    (bg_cutoff : Option ℚ) : Except PyError (QImage × ℚ) :=
  init_extended_coadd built none bg_cutoff

/-- A concrete observation that is not of the reference type
`Observation` (e.g. a `LowResObservation`). -/
def lowResObs : SObservation :=
  { frame := { psf := none, getPixel := fun _ => (0, 0) }
    images := [fun _ _ => 0]
    isObs := false }

/-- A concrete observation of the reference type `Observation`. -/
def refObs : SObservation :=
  { frame := { psf := none, getPixel := fun _ => (0, 0) }
    images := [fun _ _ => 1]
    isObs := true }

/-- A concrete observation of the reference type `Observation` with two
image channels. -/
def refObs2 : SObservation :=
  { frame := { psf := none, getPixel := fun _ => (0, 0) }
    images := [fun _ _ => 1, fun _ _ => 1]
    isObs := true }

/-- A concrete 16×16 peak-normalized, center-peaked morphology of the
shape `init_extended_source` produces: value 1 at the center pixel (8, 8)
and 1/4 elsewhere. -/
def cMorphC1 : QImage :=
  ⟨16, 16, fun y x => if y = 8 ∧ x = 8 then 1 else 1 / 4⟩

/-- A concrete single-channel observation whose frame PSF has per-channel
peaks `[1]`, with pixel value 3 everywhere. -/
def obsPeakOne : SObservation :=
  { frame := { psf := some ⟨[[[1]]]⟩, getPixel := fun _ => (0, 0) }
    images := [fun _ _ => 3]
    isObs := true }

/-- A concrete model frame whose PSF has channel-0 peak 2. -/
def framePeakTwo : SFrame :=
  { psf := some ⟨[[[2]]]⟩, getPixel := fun _ => (0, 0) }

instance : DecidableEq (Except PyError Unit) := fun a b =>
  match a, b with
  | Except.ok (), Except.ok () => isTrue rfl
  | Except.error e, Except.error f =>
    if h : e = f then isTrue (by rw [h])
    else isFalse fun hh => h (Except.error.inj hh)
  | Except.ok _, Except.error _ => isFalse fun h => Except.noConfusion h
  | Except.error _, Except.ok _ => isFalse fun h => Except.noConfusion h

/-- A concrete 1×1 image with unit value, used as a minimal coadd. -/
def qOne : QImage := ⟨1, 1, fun _ _ => 1⟩

/-! ## Theorems -/

theorem growLoop_pow (fuel : ℕ) (size : ℤ) (b : ℕ) :
    ∃ k : ℕ, growLoop fuel size b = b * 2 ^ k := by
  induction fuel generalizing b with
  | zero => exact ⟨0, by simp [growLoop]⟩
  | succ fuel ih =>
    by_cases h : (b : ℤ) < size
    · obtain ⟨k, hk⟩ := ih (2 * b)
      refine ⟨k + 1, ?_⟩
      simp only [growLoop, h, if_true, hk]
      ring
    · exact ⟨0, by simp [growLoop, h]⟩

/-- The fuel passed to `growLoop` by `trimBoxsize` is sufficient: whenever
the target `size` is at most `b * 2 ^ fuel`, the loop runs until the exit
condition `¬ boxsize < size` holds. -/
theorem growLoop_exits (fuel : ℕ) (size : ℤ) (b : ℕ) (hb : 1 ≤ b)
    (h : size ≤ (b : ℤ) * 2 ^ fuel) : size ≤ (growLoop fuel size b : ℤ) := by
  induction fuel generalizing b with
  | zero => simpa [growLoop] using h
  | succ fuel ih =>
    by_cases hlt : (b : ℤ) < size
    · simp only [growLoop, hlt, if_true]
      refine ih (2 * b) (by omega) ?_
      push_cast
      calc size ≤ (b : ℤ) * 2 ^ (fuel + 1) := h
        _ = (2 : ℤ) * b * 2 ^ fuel := by ring
    · simp only [growLoop, hlt, if_false]
      omega

theorem trimBoxsize_pow (pc : ℤ × ℤ) (m : QImage) (t : ℚ) :
    ∃ k : ℕ, trimBoxsize pc m t = 16 * 2 ^ k := by
  unfold trimBoxsize
  by_cases h1 : trimMask m t
  · simp only [h1, if_true]
    by_cases h2 : (boxFromData (trimNormalized pc m t)).containsB pc
    · simp only [h2, if_true]
      exact growLoop_pow _ _ 16
    · simp only [h2, if_false]
      exact ⟨0, by norm_num⟩
  · simp only [h1, if_false]
    exact ⟨0, by norm_num⟩

/-- The 3D box built by `trim_morphology` is centered on the pixel center
with half-size `8 * 2 ^ k` on each spatial axis. -/
theorem trim_box_spec (pc : ℤ × ℤ) (C : ℕ) (m : QImage) (bc th : ℚ) :
    ∃ k : ℕ,
      (trim_morphology pc C m bc th).2.ystart = pc.1 - ((8 * 2 ^ k : ℕ) : ℤ) ∧
      (trim_morphology pc C m bc th).2.ystop = pc.1 + ((8 * 2 ^ k : ℕ) : ℤ) ∧
      (trim_morphology pc C m bc th).2.xstart = pc.2 - ((8 * 2 ^ k : ℕ) : ℤ) ∧
      (trim_morphology pc C m bc th).2.xstop = pc.2 + ((8 * 2 ^ k : ℕ) : ℤ) := by
  obtain ⟨k, hk⟩ := trimBoxsize_pow pc m (bc * th)
  refine ⟨k, ?_, ?_, ?_, ?_⟩ <;>
    simp only [trim_morphology, hk] <;>
    rw [show (16 : ℕ) * 2 ^ k = 2 * (8 * 2 ^ k) by ring, Nat.mul_div_cancel_left _ two_pos]

/-- Claim C2: for every morphology array and center pixel, the 3D bounding
box returned by `trim_morphology` has spatial side length `16 * 2 ^ n` for
some integer `n ≥ 0` on both spatial axes, and the box contains the center
pixel. -/
theorem trim_morphology_box_claim (pc : ℤ × ℤ) (C : ℕ) (morph : QImage)
    (bg_cutoff thresh : ℚ) :
    ∃ n : ℕ,
      (trim_morphology pc C morph bg_cutoff thresh).2.ystop -
          (trim_morphology pc C morph bg_cutoff thresh).2.ystart = 16 * 2 ^ n ∧
      (trim_morphology pc C morph bg_cutoff thresh).2.xstop -
          (trim_morphology pc C morph bg_cutoff thresh).2.xstart = 16 * 2 ^ n ∧
      (trim_morphology pc C morph bg_cutoff thresh).2.ystart ≤ pc.1 ∧
      pc.1 < (trim_morphology pc C morph bg_cutoff thresh).2.ystop ∧
      (trim_morphology pc C morph bg_cutoff thresh).2.xstart ≤ pc.2 ∧
      pc.2 < (trim_morphology pc C morph bg_cutoff thresh).2.xstop := by
  obtain ⟨k, h1, h2, h3, h4⟩ := trim_box_spec pc C morph bg_cutoff thresh
  have hp : 0 < 8 * 2 ^ k := by positivity
  refine ⟨k, ?_, ?_, ?_, ?_, ?_, ?_⟩
  · rw [h1, h2]; push_cast; ring
  · rw [h3, h4]; push_cast; ring
  · rw [h1]; omega
  · rw [h2]; omega
  · rw [h3]; omega
  · rw [h4]; omega


theorem trim_peak (pc : ℤ × ℤ) (C : ℕ) (m : QImage) (bc th : ℚ)
    (hy0 : 0 ≤ pc.1) (hy1 : pc.1 < (m.ny : ℤ))
    (hx0 : 0 ≤ pc.2) (hx1 : pc.2 < (m.nx : ℤ))
    (hmax : ∀ y < m.ny, ∀ x < m.nx, m.val (y : ℤ) (x : ℤ) ≤ m.val pc.1 pc.2)
    (hcpos : 0 < m.val pc.1 pc.2)
    (hnz : ∃ y < m.ny, ∃ x < m.nx, bc * th < m.val (y : ℤ) (x : ℤ)) :
    (∀ y x : ℤ, (trim_morphology pc C m bc th).1.val y x ≤ 1) ∧
    (trim_morphology pc C m bc th).1.val
        (pc.1 - (trim_morphology pc C m bc th).2.ystart)
        (pc.2 - (trim_morphology pc C m bc th).2.xstart) = 1 := by
  obtain ⟨y0, hy0m, x0, hx0m, hv0⟩ := hnz
  have hcM : bc * th < m.val pc.1 pc.2 :=
    lt_of_lt_of_le hv0 (hmax y0 hy0m x0 hx0m)
  have hmask : trimMask m (bc * th) = true := by
    unfold trimMask
    rw [List.any_eq_true]
    refine ⟨y0, List.mem_range.mpr hy0m, ?_⟩
    rw [List.any_eq_true]
    exact ⟨x0, List.mem_range.mpr hx0m, by simpa using hv0⟩
  have hMne : m.val pc.1 pc.2 ≠ 0 := ne_of_gt hcpos
  have hcthr : (trimThresholded m (bc * th)).val pc.1 pc.2 = m.val pc.1 pc.2 := by
    simp only [trimThresholded, if_pos hcM]
  have hnorm_le : ∀ y x : ℤ, 0 ≤ y → y < (m.ny : ℤ) → 0 ≤ x → x < (m.nx : ℤ) →
      (trimNormalized pc m (bc * th)).val y x ≤ 1 := by
    intro y x h0 h1 h2 h3
    simp only [trimNormalized, hcthr]
    by_cases hv : bc * th < m.val y x
    · simp only [trimThresholded, if_pos hv]
      rw [div_le_one hcpos]
      have := hmax y.toNat (by omega) x.toNat (by omega)
      rwa [Int.toNat_of_nonneg h0, Int.toNat_of_nonneg h2] at this
    · simp only [trimThresholded, if_neg hv, zero_div]
      exact zero_le_one
  have hnorm_c : (trimNormalized pc m (bc * th)).val pc.1 pc.2 = 1 := by
    simp only [trimNormalized, hcthr]
    exact div_self hMne
  obtain ⟨k, hk⟩ := trimBoxsize_pow pc m (bc * th)
  have hhalf : trimBoxsize pc m (bc * th) / 2 = 8 * 2 ^ k := by
    rw [hk, show (16 : ℕ) * 2 ^ k = 2 * (8 * 2 ^ k) by ring,
      Nat.mul_div_cancel_left _ two_pos]
  have hcpow : (0 : ℤ) < ((8 * 2 ^ k : ℕ) : ℤ) := by positivity
  have hmorphF : trimMorphF pc m (bc * th) = trimNormalized pc m (bc * th) := by
    simp [trimMorphF, hmask]
  constructor
  · intro y x
    simp only [trim_morphology, hhalf, hmorphF, Box2.extract_from]
    split
    · rename_i hg
      exact hnorm_le _ _ hg.2.2.2.2.1 (by exact_mod_cast hg.2.2.2.2.2.1)
        hg.2.2.2.2.2.2.1 (by exact_mod_cast hg.2.2.2.2.2.2.2)
    · exact zero_le_one
  · simp only [trim_morphology, hhalf, hmorphF, Box2.extract_from]
    rw [sub_sub_cancel, sub_sub_cancel]
    rw [if_pos]
    · rw [show pc.1 - ((8 * 2 ^ k : ℕ) : ℤ) + ((8 * 2 ^ k : ℕ) : ℤ) = pc.1 by ring,
        show pc.2 - ((8 * 2 ^ k : ℕ) : ℤ) + ((8 * 2 ^ k : ℕ) : ℤ) = pc.2 by ring]
      exact hnorm_c
    · have hny : (trimNormalized pc m (bc * th)).ny = m.ny := rfl
      have hnx : (trimNormalized pc m (bc * th)).nx = m.nx := rfl
      refine ⟨le_of_lt hcpow, by omega, le_of_lt hcpow, by omega, by omega, ?_, by omega, ?_⟩
      · rw [hny]; omega
      · rw [hnx]; omega

/-- Claim C3: for every non-degenerate input — the coadd after the
symmetric and monotonic projections (which, by the contract of the
external monotonicity projection, attains its maximum at the in-bounds
center pixel) has positive flux at the center pixel and some pixel above
`bg_cutoff * thresh` — the morphology returned by `init_extended_source`
is peak-normalized, `max(morph) == 1.0` (every value is at most 1 and the
center value is exactly 1), and `morph[center] > 0`. -/
theorem init_extended_source_peak_claim (symOp monoOp : QImage → QImage)
    (pc : ℤ × ℤ) (C : ℕ) (coadd : QImage) (bg_cutoff thresh : ℚ)
    (hy0 : 0 ≤ pc.1) (hy1 : pc.1 < ((monoOp (symOp coadd)).ny : ℤ))
    (hx0 : 0 ≤ pc.2) (hx1 : pc.2 < ((monoOp (symOp coadd)).nx : ℤ))
    (hmax : ∀ y < (monoOp (symOp coadd)).ny, ∀ x < (monoOp (symOp coadd)).nx,
      (monoOp (symOp coadd)).val (y : ℤ) (x : ℤ) ≤ (monoOp (symOp coadd)).val pc.1 pc.2)
    (hcpos : 0 < (monoOp (symOp coadd)).val pc.1 pc.2)
    (hnz : ∃ y < (monoOp (symOp coadd)).ny, ∃ x < (monoOp (symOp coadd)).nx,
      bg_cutoff * thresh < (monoOp (symOp coadd)).val (y : ℤ) (x : ℤ)) :
    (∀ y x : ℤ,
      (init_extended_source_morph symOp monoOp true true pc C coadd bg_cutoff
        thresh).1.val y x ≤ 1) ∧
    (init_extended_source_morph symOp monoOp true true pc C coadd bg_cutoff
        thresh).1.val
      (pc.1 - (init_extended_source_morph symOp monoOp true true pc C coadd
        bg_cutoff thresh).2.ystart)
      (pc.2 - (init_extended_source_morph symOp monoOp true true pc C coadd
        bg_cutoff thresh).2.xstart) = 1 ∧
    0 < (init_extended_source_morph symOp monoOp true true pc C coadd bg_cutoff
        thresh).1.val
      (pc.1 - (init_extended_source_morph symOp monoOp true true pc C coadd
        bg_cutoff thresh).2.ystart)
      (pc.2 - (init_extended_source_morph symOp monoOp true true pc C coadd
        bg_cutoff thresh).2.xstart) := by
  have he : init_extended_source_morph symOp monoOp true true pc C coadd bg_cutoff
      thresh = trim_morphology pc C (monoOp (symOp coadd)) bg_cutoff thresh := rfl
  rw [he]
  obtain ⟨h1, h2⟩ := trim_peak pc C (monoOp (symOp coadd)) bg_cutoff thresh hy0 hy1
    hx0 hx1 hmax hcpos hnz
  exact ⟨h1, h2, by rw [h2]; norm_num⟩

/-- Witness for claim C3 at a concrete input: identity projections, a 1×1
unit coadd, center pixel (0, 0), `bg_cutoff = 1/2`, `thresh = 1`. -/
theorem init_extended_source_peak_claim_witness :
    ((0 : ℚ) < (id (id qOne)).val ((0 : ℤ), (0 : ℤ)).1 ((0 : ℤ), (0 : ℤ)).2) ∧
    ((∀ y x : ℤ,
      (init_extended_source_morph id id true true ((0 : ℤ), (0 : ℤ)) 1 qOne (1 / 2)
        1).1.val y x ≤ 1) ∧
    (init_extended_source_morph id id true true ((0 : ℤ), (0 : ℤ)) 1 qOne (1 / 2)
        1).1.val
      (((0 : ℤ), (0 : ℤ)).1 - (init_extended_source_morph id id true true
        ((0 : ℤ), (0 : ℤ)) 1 qOne (1 / 2) 1).2.ystart)
      (((0 : ℤ), (0 : ℤ)).2 - (init_extended_source_morph id id true true
        ((0 : ℤ), (0 : ℤ)) 1 qOne (1 / 2) 1).2.xstart) = 1 ∧
    0 < (init_extended_source_morph id id true true ((0 : ℤ), (0 : ℤ)) 1 qOne
        (1 / 2) 1).1.val
      (((0 : ℤ), (0 : ℤ)).1 - (init_extended_source_morph id id true true
        ((0 : ℤ), (0 : ℤ)) 1 qOne (1 / 2) 1).2.ystart)
      (((0 : ℤ), (0 : ℤ)).2 - (init_extended_source_morph id id true true
        ((0 : ℤ), (0 : ℤ)) 1 qOne (1 / 2) 1).2.xstart)) :=
  ⟨by decide!,
   init_extended_source_peak_claim id id ((0 : ℤ), (0 : ℤ)) 1 qOne (1 / 2) 1
     (by decide!) (by decide!) (by decide!) (by decide!) (by decide!) (by decide!)
     (by decide!)⟩

theorem peelLayers_length (morphv : ℤ → ℤ → ℚ) :
    ∀ (ts : List ℚ) (lt : ℚ) (c : ℤ → ℤ → ℚ),
      (peelLayers morphv lt ts c).length = ts.length + 1 := by
  intro ts
  induction ts with
  | nil => intro lt c; simp [peelLayers]
  | cons t ts ih => intro lt c; simp [peelLayers, ih]

/-- Pointwise sum of the peeled layers: as long as the remaining thresholds
are sorted and the running layer `c` holds the remainder above the last
threshold (or is zero from an earlier exhausted threshold), the layers sum
to the running layer's value. -/
theorem peelLayers_sum (morphv : ℤ → ℤ → ℚ) (y x : ℤ) :
    ∀ (ts : List ℚ) (lt : ℚ) (c : ℤ → ℤ → ℚ),
      List.Sorted (· ≤ ·) ts →
      (c y x = morphv y x - lt ∨
        (morphv y x ≤ lt ∧ c y x = 0 ∧ ∀ t ∈ ts, lt ≤ t)) →
      ((peelLayers morphv lt ts c).map fun f => f y x).sum = c y x := by
  intro ts
  induction ts with
  | nil =>
    intro lt c _ _
    simp [peelLayers]
  | cons t ts ih =>
    intro lt c hsort hc
    rw [List.sorted_cons] at hsort
    obtain ⟨hall, hsort'⟩ := hsort
    simp only [peelLayers, List.map_cons, List.sum_cons]
    have hrec := ih t (fun y x => if t < morphv y x then morphv y x - t else 0)
      hsort' ?_
    · rw [hrec]
      by_cases hv : t < morphv y x
      · simp only [if_pos hv]
        rcases hc with hc | ⟨hle, _, hlb⟩
        · rw [hc]; ring
        · exact absurd hv (not_lt.mpr (hle.trans (hlb t (List.mem_cons_self t ts))))
      · simp only [if_neg hv]
        ring
    · by_cases hv : t < morphv y x
      · exact Or.inl (by simp [if_pos hv])
      · exact Or.inr ⟨le_of_not_lt hv, by simp [if_neg hv], hall⟩

theorem fluxThresholds_sorted (morph : QImage) (ps : List ℚ)
    (h : 0 ≤ qImageMax morph) :
    List.Sorted (· ≤ ·) (fluxThresholds morph ps) := by
  unfold fluxThresholds
  refine List.Pairwise.map _ ?_ (List.sorted_insertionSort (· ≤ ·) ps)
  intro a b hab
  exact (div_le_div_iff_of_pos_right (by norm_num)).mpr (mul_le_mul_of_nonneg_right hab h)

/-- Claim C1 (amended): before the per-layer peak renormalization of
source lines 309-313, the `K = len(flux_percentiles) + 1` layers built by
`init_multicomponent_source` sum exactly to the input morphology at every
pixel, for every percentile list and every morphology with nonnegative
maximum (every peak-normalized morphology qualifies). -/
theorem init_multicomponent_raw_sum (morph : QImage) (ps : List ℚ)
    (h : 0 ≤ qImageMax morph) :
    (init_multicomponent_morphs_raw morph ps).length = ps.length + 1 ∧
    ∀ y x : ℤ,
      ((init_multicomponent_morphs_raw morph ps).map fun f => f y x).sum =
        morph.val y x := by
  constructor
  · unfold init_multicomponent_morphs_raw
    rw [peelLayers_length]
    simp [fluxThresholds, List.length_insertionSort]
  · intro y x
    unfold init_multicomponent_morphs_raw
    rw [peelLayers_sum morph.val y x _ 0 morph.val
      (fluxThresholds_sorted morph ps h) (Or.inl (by ring))]

/-- Witness for the amended claim C1 at a concrete input: the 1×1 unit
morphology and percentile list `[25]`. -/
theorem init_multicomponent_raw_sum_witness :
    (0 ≤ qImageMax qOne) ∧
    ((init_multicomponent_morphs_raw qOne [25]).length = [(25 : ℚ)].length + 1 ∧
     ∀ y x : ℤ,
       ((init_multicomponent_morphs_raw qOne [25]).map fun f => f y x).sum =
         qOne.val y x) :=
  ⟨by decide!, init_multicomponent_raw_sum qOne [25] (by decide!)⟩

/-- Counterexample to claim C1 as stated: `cMorphC1` is a peak-normalized
16×16 morphology with its maximum 1 at the center pixel (8, 8) — the shape
`init_extended_source` produces — yet with percentile list `[50]` the
layers returned by `init_multicomponent_source` (which are renormalized
per layer before being returned, source lines 309-313) sum to 2 at the
center pixel instead of the original value 1. -/
theorem init_multicomponent_sum_counterexample :
    qImageMax cMorphC1 = 1 ∧ cMorphC1.val 8 8 = 1 ∧
    ((init_multicomponent_morphs cMorphC1 [50]).map fun m => m.val 8 8).sum = 2 ∧
    ¬ (((init_multicomponent_morphs cMorphC1 [50]).map fun m => m.val 8 8).sum =
        cMorphC1.val 8 8) := by
  decide!


theorem positiveChannels_lt (sed : List ℚ) :
    ∀ c ∈ positiveChannels sed, c < sed.length := by
  intro c hc
  unfold positiveChannels at hc
  rw [List.mem_filter] at hc
  exact List.mem_range.mp hc.1

theorem coaddLoopCheck_bad :
    ∀ (obss : List SObservation) (seds rmses : List (List ℚ)),
      obss.length ≤ seds.length → obss.length ≤ rmses.length →
      (∀ p ∈ obss.zip (seds.zip rmses),
        p.2.1.length = p.2.2.length ∧ p.2.1.length = p.1.images.length) →
      (∃ i < obss.length, ∃ r ∈ rmses.getD i [], r ≤ 0) →
      coaddLoopCheck obss seds rmses = Except.error PyError.valueError := by
  intro obss
  induction obss with
  | nil =>
    intro seds rmses _ _ _ hbad
    obtain ⟨i, hi, _⟩ := hbad
    simp at hi
  | cons o obss ih =>
    intro seds rmses hs hr halign hbad
    cases seds with
    | nil => simp at hs
    | cons sed seds' =>
      cases rmses with
      | nil => simp at hr
      | cons rms rmses' =>
        have hhead : sed.length = rms.length ∧ sed.length = o.images.length := by
          apply halign (o, (sed, rms))
          rw [List.zip_cons_cons, List.zip_cons_cons]
          exact List.mem_cons_self _ _
        have himg : ((positiveChannels sed).any fun c =>
            decide (o.images.length ≤ c)) = false := by
          rw [List.any_eq_false]
          intro c hc
          have hlt := positiveChannels_lt sed c hc
          have h2 := hhead.2
          simp only [decide_eq_true_eq]
          omega
        have hrms2 : ((positiveChannels sed).any fun c =>
            decide (rms.length ≤ c)) = false := by
          rw [List.any_eq_false]
          intro c hc
          have hlt := positiveChannels_lt sed c hc
          have h1 := hhead.1
          simp only [decide_eq_true_eq]
          omega
        simp only [coaddLoopCheck]
        by_cases hany : (rms.any fun r => decide (r ≤ 0)) = true
        · simp [hany]
        · rw [if_neg (by simpa using hany), if_neg (by simp [himg]),
            if_neg (by simp [hrms2])]
          apply ih seds' rmses' (by simpa using hs) (by simpa using hr)
          · intro p hp
            apply halign p
            rw [List.zip_cons_cons, List.zip_cons_cons]
            exact List.mem_cons_of_mem _ hp
          · obtain ⟨i, hi, r, hrm, hrle⟩ := hbad
            match i, hi with
            | 0, _ =>
              exfalso
              apply hany
              exact List.any_eq_true.mpr ⟨r, by simpa using hrm, by simpa using hrle⟩
            | i + 1, hi =>
              exact ⟨i, by simpa using hi, r, by simpa using hrm, hrle⟩

/-- Claim C4 (amended): provided at least one observation in the list is
of type `Observation` (otherwise the reference-observation lookup at
source line 93 raises IndexError before any RMS is inspected), the
sed/RMS lists cover the observation list, and each observation's SED, RMS
and image channel counts agree — the calling convention of the
per-channel reads of lines 105-112, whose violation also ends in
IndexError — a call to `build_sed_coadd` in which some observation's
background RMS vector has a zero or negative entry raises ValueError
rather than returning a coadd. -/
theorem build_sed_coadd_raises (observations : List SObservation)
    (seds bg_rmses : List (List ℚ))
    (href : (observations.any fun o => o.isObs) = true)
    (hs : observations.length ≤ seds.length)
    (hr : observations.length ≤ bg_rmses.length)
    (halign : ∀ p ∈ observations.zip (seds.zip bg_rmses),
      p.2.1.length = p.2.2.length ∧ p.2.1.length = p.1.images.length)
    (hbad : ∃ i < observations.length, ∃ r ∈ bg_rmses.getD i [], r ≤ 0) :
    build_sed_coadd_exc observations seds bg_rmses =
      Except.error PyError.valueError := by
  unfold build_sed_coadd_exc
  rw [if_pos href]
  exact coaddLoopCheck_bad observations seds bg_rmses hs hr halign hbad

/-- Witness for the amended claim C4 at a concrete input: a single
reference-type observation with one channel, SED `[1]` and RMS `[0]`. -/
theorem build_sed_coadd_raises_witness :
    (([refObs].any fun o => o.isObs) = true) ∧
    (∀ p ∈ [refObs].zip ([[(1 : ℚ)]].zip [[(0 : ℚ)]]),
      p.2.1.length = p.2.2.length ∧ p.2.1.length = p.1.images.length) ∧
    (∃ i < [refObs].length, ∃ r ∈ ([[(0 : ℚ)]] : List (List ℚ)).getD i [], r ≤ 0) ∧
    build_sed_coadd_exc [refObs] [[1]] [[0]] = Except.error PyError.valueError :=
  ⟨by decide!, by decide!, by decide!,
   build_sed_coadd_raises [refObs] [[1]] [[0]] (by decide!) (by decide!)
     (by decide!) (by decide!) (by decide!)⟩

/-- Counterexample to claim C4 as stated, exhibiting each way the promise
fails and thereby forcing each hypothesis of the amendment: (i) with no
reference-type `Observation` in the list, a call whose RMS vector contains
0 raises IndexError at the reference lookup of source line 93, not
ValueError; (ii) with a reference observation present and covering lists
but a 2-channel SED row against a 1-channel RMS row, iteration 0 raises
IndexError at the `bg_rms[c]` read of line 110 before the zero RMS entry
of observation 1 is ever inspected; (iii) with fewer SED rows than
observations, reading `seds[1]` raises IndexError before the zero RMS
entry of observation 1 is checked. -/
theorem build_sed_coadd_counterexample :
    ((∃ r ∈ ([[(0 : ℚ)]] : List (List ℚ)).getD 0 [], r ≤ 0) ∧
     build_sed_coadd_exc [lowResObs] [[1]] [[0]] = Except.error PyError.indexError ∧
     ¬ build_sed_coadd_exc [lowResObs] [[1]] [[0]] =
         Except.error PyError.valueError) ∧
    ((([refObs2, refObs].any fun o => o.isObs) = true) ∧
     (∃ i < [refObs2, refObs].length,
       ∃ r ∈ ([[(1 : ℚ)], [(0 : ℚ)]] : List (List ℚ)).getD i [], r ≤ 0) ∧
     build_sed_coadd_exc [refObs2, refObs] [[1, 1], [1]] [[1], [0]] =
       Except.error PyError.indexError ∧
     ¬ build_sed_coadd_exc [refObs2, refObs] [[1, 1], [1]] [[1], [0]] =
         Except.error PyError.valueError) ∧
    (build_sed_coadd_exc [refObs, refObs] [[1]] [[1], [0]] =
       Except.error PyError.indexError) := by
  decide!

theorem zipWith_eq_range_map {α β γ : Type} (f : α → β → γ) (d1 : α) (d2 : β) :
    ∀ (a : List α) (b : List β), a.length = b.length →
      List.zipWith f a b =
        (List.range a.length).map fun c => f (a.getD c d1) (b.getD c d2) := by
  intro a
  induction a with
  | nil => intro b h; simp
  | cons x a ih =>
    intro b h
    cases b with
    | nil => simp at h
    | cons y b =>
      rw [List.length_cons, List.range_succ_eq_map]
      simp only [List.zipWith_cons_cons, List.map_cons, List.getD_cons_zero,
        List.map_map]
      congr 1
      rw [ih b (by simpa using h)]
      apply List.map_congr_left
      intro c _
      simp [Function.comp_def, List.getD_cons_succ]

theorem positiveChannels_all (sed : List ℚ) (h : ∀ v ∈ sed, 0 < v) :
    positiveChannels sed = List.range sed.length := by
  unfold positiveChannels
  apply List.filter_eq_self.mpr
  intro c hc
  rw [List.mem_range] at hc
  simp only [decide_eq_true_eq]
  have hg : sed.getD c 0 = sed[c] := by
    rw [List.getD_eq_getElem?_getD, List.getElem?_eq_getElem hc]
    rfl
  rw [hg]
  exact h _ (List.getElem_mem hc)

theorem coaddPairs_all_pos (seds bg_rmses : List (List ℚ))
    (hlen : ∀ p ∈ seds.zip bg_rmses, p.1.length = p.2.length)
    (hsed : ∀ p ∈ seds.zip bg_rmses, ∀ v ∈ p.1, 0 < v) :
    coaddPairs seds bg_rmses = coaddPairsAll seds bg_rmses := by
  unfold coaddPairs coaddPairsAll
  apply List.flatMap_congr
  intro sr hsr
  rw [positiveChannels_all sr.1 (hsed sr hsr),
    show sr.1.zip sr.2 = List.zipWith Prod.mk sr.1 sr.2 from rfl,
    zipWith_eq_range_map Prod.mk (0 : ℚ) (0 : ℚ) sr.1 sr.2 (hlen sr hsr)]

/-- Every pair accumulated from all channels has positive components when
all SED and RMS entries are positive. -/
theorem coaddPairsAll_pos (seds bg_rmses : List (List ℚ))
    (hsed : ∀ p ∈ seds.zip bg_rmses, ∀ v ∈ p.1, 0 < v)
    (hrms : ∀ p ∈ seds.zip bg_rmses, ∀ v ∈ p.2, 0 < v) :
    ∀ q ∈ coaddPairsAll seds bg_rmses, 0 < q.1 ∧ 0 < q.2 := by
  rintro ⟨a, b⟩ hq
  unfold coaddPairsAll at hq
  rw [List.mem_flatMap] at hq
  obtain ⟨sr, hsr, hmem⟩ := hq
  obtain ⟨h1, h2⟩ := List.of_mem_zip hmem
  exact ⟨hsed sr hsr _ h1, hrms sr hsr _ h2⟩

/-- Claim C5: for every call of `build_sed_coadd` in which all SED entries
and all background RMS entries are strictly positive (and at least one
channel exists), the returned `bg_cutoff` equals
`sqrt(Σ (weight·rms)²) / Σ sed²/rms²` with `weight = sed/rms²` summed over
all channels, and `bg_cutoff > 0`. -/
theorem bg_cutoff_claim (seds bg_rmses : List (List ℚ))
    (hlen : ∀ p ∈ seds.zip bg_rmses, p.1.length = p.2.length)
    (hsed : ∀ p ∈ seds.zip bg_rmses, ∀ v ∈ p.1, 0 < v)
    (hrms : ∀ p ∈ seds.zip bg_rmses, ∀ v ∈ p.2, 0 < v)
    (hne : coaddPairsAll seds bg_rmses ≠ []) :
    bg_cutoff seds bg_rmses = bg_cutoff_spec seds bg_rmses ∧
    0 < bg_cutoff seds bg_rmses := by
  have hpairs := coaddPairs_all_pos seds bg_rmses hlen hsed
  have hqpos := coaddPairsAll_pos seds bg_rmses hsed hrms
  have hrad : coaddRadicand seds bg_rmses =
      ((coaddPairsAll seds bg_rmses).map fun p => (p.1 / p.2 ^ 2 * p.2) ^ 2).sum := by
    unfold coaddRadicand
    rw [hpairs]
    congr 1
    apply List.map_congr_left
    intro p _
    unfold coaddWeight
    ring
  have hnorm : coaddNorm seds bg_rmses =
      ((coaddPairsAll seds bg_rmses).map fun p => p.1 ^ 2 / p.2 ^ 2).sum := by
    unfold coaddNorm
    rw [hpairs]
    rfl
  constructor
  · unfold bg_cutoff bg_cutoff_spec
    rw [hrad, hnorm]
  · unfold bg_cutoff
    apply div_pos
    · apply Real.sqrt_pos.mpr
      rw [show ((0 : ℝ) = ((0 : ℚ) : ℝ)) from by norm_num]
      rw [Rat.cast_lt]
      rw [hrad]
      apply List.sum_pos
      · intro v hv
        rw [List.mem_map] at hv
        obtain ⟨p, hp, rfl⟩ := hv
        obtain ⟨hp1, hp2⟩ := hqpos p hp
        positivity
      · simpa using hne
    · rw [show ((0 : ℝ) = ((0 : ℚ) : ℝ)) from by norm_num]
      rw [Rat.cast_lt]
      rw [hnorm]
      apply List.sum_pos
      · intro v hv
        rw [List.mem_map] at hv
        obtain ⟨p, hp, rfl⟩ := hv
        obtain ⟨hp1, hp2⟩ := hqpos p hp
        positivity
      · simpa using hne

/-- Witness for claim C5 at a concrete input: one observation, one channel,
SED `[1]` and RMS `[1]`. -/
theorem bg_cutoff_claim_witness :
    (coaddPairsAll [[1]] [[1]] ≠ []) ∧
    bg_cutoff [[1]] [[1]] = bg_cutoff_spec [[1]] [[1]] ∧
    0 < bg_cutoff [[1]] [[1]] :=
  ⟨by decide!,
   (bg_cutoff_claim [[1]] [[1]] (by decide!) (by decide!) (by decide!)
     (by decide!)).1,
   (bg_cutoff_claim [[1]] [[1]] (by decide!) (by decide!) (by decide!)
     (by decide!)).2⟩


theorem map_range_getD (l : List ℚ) (f : ℚ → ℚ) :
    ((List.range l.length).map fun c => f (l.getD c 0)) = l.map f := by
  induction l with
  | nil => simp
  | cons x l ih =>
    rw [List.length_cons, List.range_succ_eq_map]
    simp only [List.map_cons, List.getD_cons_zero, List.map_map]
    congr 1

/-- Claim C6: `get_psf_sed` returns the pixel SED divided elementwise by
the observation frame PSF's per-channel peak values and multiplied by the
target frame PSF's channel-0 peak value, each factor applied only when the
respective PSF model exists; in particular, with observation PSF peaks
`[1]` and target-frame channel-0 peak 2 it returns `pixel_sed * 2`,
whereas `get_pixel_sed` returns the raw per-channel pixel values. -/
theorem get_psf_sed_claim (sky : ℚ × ℚ) (obs : SObservation) (frame : SFrame)
    (hlen : ∀ p, obs.frame.psf = some p →
      (psfChannelPeaks p).length = (get_pixel_sed sky obs).length) :
    get_psf_sed sky obs frame = psf_sed_formula sky obs frame ∧
    get_pixel_sed sky obs = (obs.images.map fun img =>
      img (obs.frame.getPixel sky).1 (obs.frame.getPixel sky).2) ∧
    (∀ p q, obs.frame.psf = some p → psfChannelPeaks p = [1] →
      frame.psf = some q → psfPeak0 q = 2 →
      get_psf_sed sky obs frame = (get_pixel_sed sky obs).map fun v => v * 2) := by
  refine ⟨?_, rfl, ?_⟩
  case refine_2 =>
    intro p q hp hpk hq hqk
    have h1 : (get_pixel_sed sky obs).length = 1 := by
      have hx := hlen p hp
      rw [hpk] at hx
      simpa using hx.symm
    obtain ⟨a, ha⟩ := List.length_eq_one.mp h1
    simp only [get_psf_sed, hp, hq, hpk, hqk, ha]
    simp
  unfold get_psf_sed psf_sed_formula
  cases hobs : obs.frame.psf with
  | none =>
    cases hfr : frame.psf with
    | none =>
      simp only
      rw [map_range_getD (get_pixel_sed sky obs) fun v => v / 1 * 1]
      simp
    | some q =>
      simp only
      rw [map_range_getD (get_pixel_sed sky obs) fun v => v / 1 * psfPeak0 q]
      apply List.map_congr_left
      intro v _
      rw [div_one]
  | some p =>
    have hl := hlen p hobs
    cases hfr : frame.psf with
    | none =>
      simp only
      rw [zipWith_eq_range_map (· / ·) (0 : ℚ) (1 : ℚ) _ _ hl.symm]
      apply List.map_congr_left
      intro c _
      simp
    | some q =>
      simp only
      rw [List.map_zipWith]
      rw [zipWith_eq_range_map (fun a b => a / b * psfPeak0 q) (0 : ℚ) (1 : ℚ)
        _ _ hl.symm]

/-- Witness for claim C6 at a concrete input: a single-channel observation
with PSF peak 1, a model frame with channel-0 PSF peak 2, and pixel value
3, for which the PSF-corrected SED is `[6] = pixel_sed * 2`. -/
theorem get_psf_sed_claim_witness :
    (∀ p, obsPeakOne.frame.psf = some p →
      (psfChannelPeaks p).length =
        (get_pixel_sed ((0 : ℚ), (0 : ℚ)) obsPeakOne).length) ∧
    (get_psf_sed ((0 : ℚ), (0 : ℚ)) obsPeakOne framePeakTwo =
       psf_sed_formula ((0 : ℚ), (0 : ℚ)) obsPeakOne framePeakTwo ∧
     get_pixel_sed ((0 : ℚ), (0 : ℚ)) obsPeakOne = (obsPeakOne.images.map fun img =>
       img (obsPeakOne.frame.getPixel ((0 : ℚ), (0 : ℚ))).1
         (obsPeakOne.frame.getPixel ((0 : ℚ), (0 : ℚ))).2) ∧
     (∀ p q, obsPeakOne.frame.psf = some p → psfChannelPeaks p = [1] →
       framePeakTwo.psf = some q → psfPeak0 q = 2 →
       get_psf_sed ((0 : ℚ), (0 : ℚ)) obsPeakOne framePeakTwo =
         (get_pixel_sed ((0 : ℚ), (0 : ℚ)) obsPeakOne).map fun v => v * 2)) :=
  ⟨fun p hp => by cases Option.some.inj hp; decide!,
   get_psf_sed_claim ((0 : ℚ), (0 : ℚ)) obsPeakOne framePeakTwo
     fun p hp => by cases Option.some.inj hp; decide!⟩

/-- Claim C7: for every StarletSource threshold construction with at least
one wavelet scale, the per-coefficient threshold entries at the last
(finest) scale are exactly 0 — the last scale is never thresholded — while
every coarser scale `s` is thresholded at `thresh * starlet_norm[s]`. -/
theorem starletThreshArray_claim (thresh : ℚ) (starlet_norm : List ℚ) (lvl : ℕ)
    (_hlvl : 1 ≤ lvl) :
    ∀ y x : ℕ,
      starletThreshArray thresh starlet_norm lvl (lvl - 1) y x = 0 ∧
      ∀ s, s < lvl - 1 →
        starletThreshArray thresh starlet_norm lvl s y x =
          thresh * starlet_norm.getD s 0 := by
  intro y x
  constructor
  · simp [starletThreshArray, setLastScaleZero]
  · intro s hs
    simp [starletThreshArray, setLastScaleZero, starletBaseThresh, Nat.ne_of_lt hs]

/-- Witness for claim C7 at a concrete input: threshold 5, per-scale norms
`[1, 2]`, two wavelet scales. -/
theorem starletThreshArray_claim_witness :
    1 ≤ 2 ∧
    (∀ y x : ℕ,
      starletThreshArray 5 [1, 2] 2 (2 - 1) y x = 0 ∧
      ∀ s, s < 2 - 1 →
        starletThreshArray 5 [1, 2] 2 s y x = 5 * [(1 : ℚ), 2].getD s 0) :=
  ⟨by decide!, starletThreshArray_claim 5 [1, 2] 2 (by decide!)⟩

/-- Claim C8: in the constraint assembly of `ExtendedSource.__init__`,
`monotonic=True` yields a monotonicity constraint with
`neighbor_weight="angle"` (exactly as the string variant `"angle"` would),
`monotonic=False` yields no monotonicity constraint at all, and any string
variant is used as the neighbor weight unchanged. -/
theorem extendedSourceConstraints_claim (symmetric : Bool) (min_grad : ℚ)
    (s : String) :
    extendedSourceConstraints PyMono.pyTrue symmetric min_grad =
      extendedSourceConstraints (PyMono.pyStr ("angle")) symmetric min_grad ∧
    ConstraintSpec.monotonicity ("angle") min_grad ∈
      extendedSourceConstraints PyMono.pyTrue symmetric min_grad ∧
    ((extendedSourceConstraints PyMono.pyFalse symmetric min_grad).all
      fun c => ! c.isMono) = true ∧
    ConstraintSpec.monotonicity s min_grad ∈
      extendedSourceConstraints (PyMono.pyStr s) symmetric min_grad := by
  refine ⟨rfl, ?_, ?_, ?_⟩
  · simp [extendedSourceConstraints, monotonicShim]
  · cases symmetric <;> simp [extendedSourceConstraints, monotonicShim,
      ConstraintSpec.isMono]
  · simp [extendedSourceConstraints, monotonicShim]

/-- Claim C9: `MultiComponentSource.__init__` passes `coadd=None` to
`init_multicomponent_source`, so the caller-supplied coadd and
`bg_cutoff` are ignored and the detection coadd/cutoff pair is always the
one rebuilt from the observations (the `built` argument). -/
theorem multicomponent_coadd_ignored (built : QImage × ℚ) (coadd : Option QImage)
    (bgc : Option ℚ) :
    multicomponent_source_coadd built coadd bgc = Except.ok built ∧
    ∀ (coadd2 : Option QImage) (bgc2 : Option ℚ),
      multicomponent_source_coadd built coadd bgc =
        multicomponent_source_coadd built coadd2 bgc2 :=
  ⟨rfl, fun _ _ => rfl⟩

/-- Claim C10: `ExtendedSource.__init__` and
`MultiComponentSource.__init__` invoke the initializers with
`symmetric=True, monotonic=True` regardless of their `symmetric` and
`monotonic` constructor arguments; those arguments only shape the
constraint chains, and the initial morphologies are unchanged by them. -/
theorem source_init_flags_claim (symOp monoOp : QImage → QImage) (pc : ℤ × ℤ)
    (C : ℕ) (coadd : QImage) (bgc th : ℚ) (ps : List ℚ)
    (m1 m2 : PyMono) (s1 s2 : Bool) (g : ℚ) :
    (extendedSourceSetup symOp monoOp pc C coadd bgc th m1 s1 g).initResult =
      init_extended_source_morph symOp monoOp true true pc C coadd bgc th ∧
    (extendedSourceSetup symOp monoOp pc C coadd bgc th m1 s1 g).initResult =
      (extendedSourceSetup symOp monoOp pc C coadd bgc th m2 s2 g).initResult ∧
    (extendedSourceSetup symOp monoOp pc C coadd bgc th m1 s1 g).constraints =
      extendedSourceConstraints m1 s1 g ∧
    (multiComponentSetup symOp monoOp pc C coadd bgc th ps m1 s1 g).morphs =
      (init_multicomponent_source_model symOp monoOp true true pc C coadd bgc th
        ps).1 ∧
    (multiComponentSetup symOp monoOp pc C coadd bgc th ps m1 s1 g).morphs =
      (multiComponentSetup symOp monoOp pc C coadd bgc th ps m2 s2 g).morphs ∧
    (multiComponentSetup symOp monoOp pc C coadd bgc th ps m1 s1 g).constraints =
      multiComponentConstraints m1 s1 g :=
  ⟨rfl, rfl, rfl, rfl, rfl, rfl⟩
